import Mathlib

/-!
Verification of the URL codec, content rewriter, forwarding pipeline and
access guard of a web proxy (multiple serverless entry points sharing the
same request/rewrite logic).

The JavaScript sources are shallowly embedded: strings are modelled as
`List Char`, each handler as a pure function from an inbound request to the
local answer or outbound request it produces, and the HTML rewriters at the
level of the URL-bearing attribute values they transform.  JavaScript's
`encodeURIComponent`, base64 (`Buffer`) and WHATWG `new URL` resolution are
modelled for the ASCII inputs the proxy handles.
-/

namespace WebProxy

/-- Strings are modelled as lists of characters, so that every string
operation the handlers perform is structurally recursive and executable. -/
abbrev Str := List Char

/-- Converts a Lean string literal into the model representation. -/
def str (s : String) : Str := s.toList

/-- Lower-cases every character, modelling JavaScript `toLowerCase()` for
the ASCII range. -/
def toLowerStr (s : Str) : Str := s.map Char.toLower

/-- Tests whether `pre` is a leading segment of `s`,
modelling JavaScript `String.startsWith`. -/
def startsWith (pre s : Str) : Bool := List.isPrefixOf pre s

/-- Tests whether `pat` occurs contiguously inside `s`, modelling
JavaScript `String.includes`. -/
def containsSub (pat : Str) : Str → Bool
  | [] => pat.isEmpty
  | c :: rest => List.isPrefixOf pat (c :: rest) || containsSub pat rest

/-- Splits `s` at every occurrence of the separator character, modelling
JavaScript `String.split`. -/
def splitOnC (sep : Char) : Str → List Str
  | [] => [[]]
  | c :: rest =>
    if c = sep then [] :: splitOnC sep rest
    else
      match splitOnC sep rest with
      | [] => [[c]]
      | grp :: grps => (c :: grp) :: grps

/-- Splits `s` at the first occurrence of the separator, returning the parts
before and after it, or `none` when the separator does not occur. -/
def splitFirst (sep : Char) : Str → Option (Str × Str)
  | [] => none
  | c :: rest =>
    if c = sep then some ([], rest)
    else (splitFirst sep rest).map (fun p => (c :: p.1, p.2))

/-- Joins pieces with the separator character, modelling `Array.join`. -/
def joinC (sep : Char) (xs : List Str) : Str := List.intercalate [sep] xs


/-! Percent-encoding, modelling JavaScript `encodeURIComponent` /
`decodeURIComponent` on the ASCII range (the target URLs the proxy
rewrites).  `encodeURIComponent` leaves the unreserved characters
`A-Z a-z 0-9 - _ . ! ~ * ' ( )` intact and escapes every other byte as
`%XX` with upper-case hexadecimal digits. -/

/-- Characters that `encodeURIComponent` does not escape.  The final
character is the apostrophe (code point 39). -/
def safeChars : Str := str "ABCDEFGHIJKLMNOPQRSTUVWXYZabcdefghijklmnopqrstuvwxyz0123456789-_.!~*()" ++ [Char.ofNat 39]

/-- Tests whether `encodeURIComponent` leaves the character unescaped. -/
def isSafeChar (c : Char) : Bool := decide (c ∈ safeChars)

/-- Upper-case hexadecimal digit for a value below 16. -/
def hexUp (n : Nat) : Char := (str "0123456789ABCDEF").getD n '0'

/-- Numeric value of a hexadecimal digit character (either case), or
`none` when the character is not a hexadecimal digit. -/
def hexVal (c : Char) : Option Nat :=
  match (str "0123456789ABCDEF").findIdx? (fun d => d = c) with
  | some i => some i
  | none => (str "0123456789abcdef").findIdx? (fun d => d = c)

/-- Encoding of one character: unreserved characters stay, every other
ASCII character becomes a `%XX` escape. -/
def encChar (c : Char) : Str :=
  if isSafeChar c then [c] else ['%', hexUp (c.toNat / 16), hexUp (c.toNat % 16)]

/-- Models `encodeURIComponent` for ASCII input. -/
def percentEncode : Str → Str
  | [] => []
  | c :: rest => encChar c ++ percentEncode rest

/-- Models `decodeURIComponent` (as performed by the platform's query
parsing): a `%` followed by two hexadecimal digits is decoded to the byte
they denote; malformed escapes are kept verbatim. -/
def percentDecode : Str → Str
  | [] => []
  | '%' :: a :: b :: tl =>
    match hexVal a, hexVal b with
    | some x, some y => Char.ofNat (16 * x + y) :: percentDecode tl
    | _, _ => '%' :: percentDecode (a :: b :: tl)
  | c :: rest => c :: percentDecode rest

/-- Node's query-string layer additionally maps `+` to a space before
percent-decoding (`application/x-www-form-urlencoded` semantics). -/
def plusToSpace (s : Str) : Str := s.map (fun c => if c = '+' then ' ' else c)

/-- Query-parameter value decoding as the serverless platform performs it. -/
def percentDecodePlus (s : Str) : Str := percentDecode (plusToSpace s)


/-! Base64, modelling Node's `Buffer.from(s).toString('base64')` and
`Buffer.from(t, 'base64').toString('utf-8')` for ASCII strings.  Encoding
processes bytes in groups of three, padding with `=`; decoding ignores
every character outside the base64 alphabet (including the padding) and
drops a trailing lone sextet, exactly as Node's lenient decoder does. -/

/-- Base64 alphabet in index order. -/
def b64Alphabet : Str := str "ABCDEFGHIJKLMNOPQRSTUVWXYZabcdefghijklmnopqrstuvwxyz0123456789+/"

/-- Character for a sextet value below 64. -/
def b64Chr (n : Nat) : Char := b64Alphabet.getD n 'A'

/-- Index of a base64 alphabet character, `none` for any other character. -/
def b64Idx (c : Char) : Option Nat := b64Alphabet.findIdx? (fun d => d = c)

/-- Encodes a byte list to base64 characters, three bytes at a time. -/
def b64EncBytes : List Nat → Str
  | [] => []
  | [x] => [b64Chr (x / 4), b64Chr (x % 4 * 16), '=', '=']
  | [x, y] => [b64Chr (x / 4), b64Chr (x % 4 * 16 + y / 16), b64Chr (y % 16 * 4), '=']
  | x :: y :: z :: rest =>
    b64Chr (x / 4) :: b64Chr (x % 4 * 16 + y / 16) :: b64Chr (y % 16 * 4 + z / 64) ::
      b64Chr (z % 64) :: b64EncBytes rest

/-- Recombines a list of sextet values into bytes, four sextets giving
three bytes; trailing groups of two or three sextets give one or two
bytes, and a trailing lone sextet is dropped (Node's lenient decoder). -/
def b64Sextets : List Nat → List Nat
  | [] => []
  | [_] => []
  | [a, b] => [a * 4 + b / 16]
  | [a, b, c] => [a * 4 + b / 16, b % 16 * 16 + c / 4]
  | a :: b :: c :: d :: rest =>
    (a * 4 + b / 16) :: (b % 16 * 16 + c / 4) :: (c % 4 * 64 + d) :: b64Sextets rest

/-- Decodes a base64 character string to bytes, ignoring characters outside
the alphabet (such as the `=` padding), as `Buffer.from(t, 'base64')`. -/
def b64DecBytes (s : Str) : List Nat := b64Sextets (s.filterMap b64Idx)

/-- Byte view of an ASCII string (`Buffer.from(s, 'utf-8')` for ASCII). -/
def strBytes (s : Str) : List Nat := s.map Char.toNat

/-- String view of a byte list (`buffer.toString('utf-8')` for ASCII). -/
def bytesStr (l : List Nat) : Str := l.map Char.ofNat

/-- Models `Buffer.from(s).toString('base64')`. -/
def b64EncodeStr (s : Str) : Str := b64EncBytes (strBytes s)

/-- Models `Buffer.from(t, 'base64').toString('utf-8')`. -/
def b64DecodeStr (t : Str) : Str := bytesStr (b64DecBytes t)



/-! URL model.  JavaScript's WHATWG `new URL` is modelled for hierarchical
`scheme://host/path?query` references, the only shape the proxy handles
(its rewriters skip `data:`, `javascript:`, `mailto:`, `tel:` and
fragment-only references before resolution).  Fragments are dropped, as
none of the verified flows carries one. -/

/-- Parsed absolute URL: scheme, host (including any port), path segments
(empty list for the root path `/`) and query string (without the `?`). -/
structure AbsUrl where
  scheme : Str
  host : Str
  pathSegs : List Str
  query : Str
deriving DecidableEq, Repr

/-- Scans for the `://` separator, returning the scheme and the remainder,
or `none` when a `/`, `?`, `#` or a bare `:` appears first. -/
def splitSchemeAux : Str → Str → Option (Str × Str)
  | [], _ => none
  | ':' :: '/' :: '/' :: rest, acc => some (acc.reverse, rest)
  | c :: rest, acc =>
    if c = '/' ∨ c = '?' ∨ c = '#' ∨ c = ':' then none
    else splitSchemeAux rest (c :: acc)

/-- Accepts scheme names of the shape `[a-z][a-z0-9+.-]*` (either case). -/
def isSchemeStr : Str → Bool
  | [] => false
  | c :: rest => c.isAlpha && (c :: rest).all (fun d => d.isAlphanum || d == '+' || d == '-' || d == '.')

/-- Splits a path string such as `/a/b` into its segments `[a, b]`. -/
def segsOfPath (p : Str) : List Str :=
  match p with
  | [] => []
  | '/' :: tl => if tl.isEmpty then [] else splitOnC '/' tl
  | _ => splitOnC '/' p

/-- Parses an absolute hierarchical URL, failing (as `new URL` throws) on
a missing or malformed scheme, an empty host or a host containing a
space. -/
def parseUrl (s : Str) : Option AbsUrl :=
  match splitSchemeAux s [] with
  | none => none
  | some (scheme, rest) =>
    if isSchemeStr scheme then
      let host := rest.takeWhile (fun c => !(c == '/' || c == '?' || c == '#'))
      let after := rest.drop host.length
      if host.isEmpty || host.contains ' ' then none
      else
        let pathStr := after.takeWhile (fun c => !(c == '?' || c == '#'))
        let qf := after.drop pathStr.length
        let query :=
          if startsWith (str "?") qf then (qf.drop 1).takeWhile (fun c => !(c == '#')) else []
        some ⟨scheme, host, segsOfPath pathStr, query⟩
    else none

/-- Path of a URL as the `pathname` property renders it (always starting
with a slash; the root path is `/`). -/
def pathnameOf (u : AbsUrl) : Str := '/' :: joinC '/' u.pathSegs

/-- Query as the `search` property renders it (empty, or `?` plus query). -/
def searchOf (u : AbsUrl) : Str := if u.query.isEmpty then [] else '?' :: u.query

/-- Serialization of a URL as the `href` property renders it. -/
def hrefOf (u : AbsUrl) : Str := u.scheme ++ str "://" ++ u.host ++ pathnameOf u ++ searchOf u

/-- Origin of a URL (`scheme://host`), the `origin` property. -/
def originOf (u : AbsUrl) : Str := u.scheme ++ str "://" ++ u.host

/-- Scheme with trailing colon, the `protocol` property. -/
def protocolOf (u : AbsUrl) : Str := u.scheme ++ [':']

/-- Host without any `:port` suffix, the `hostname` property. -/
def hostnameOf (u : AbsUrl) : Str := u.host.takeWhile (fun c => !(c == ':'))

/-- Tests whether the reference carries its own `scheme://` head. -/
def hasSchemePrefix (s : Str) : Bool :=
  match splitSchemeAux s [] with
  | some (scheme, _) => isSchemeStr scheme
  | none => false

/-- Removes `.` and `..` path segments, accumulator-style, clamping `..`
at the root as WHATWG resolution does. -/
def removeDotSegs : List Str → List Str → List Str
  | [], acc => acc.reverse
  | seg :: rest, acc =>
    if seg = str "." then removeDotSegs rest acc
    else if seg = str ".." then removeDotSegs rest (acc.drop 1)
    else removeDotSegs rest (seg :: acc)

/-- Splits a relative reference into its path part and query (dropping
any fragment). -/
def relPathQuery (rel : Str) : Str × Str :=
  let p := rel.takeWhile (fun c => !(c == '?' || c == '#'))
  let qf := rel.drop p.length
  let q := if startsWith (str "?") qf then (qf.drop 1).takeWhile (fun c => !(c == '#')) else []
  (p, q)

/-- Models `new URL(rel, base)` for an already-parsed base: an absolute
reference is reparsed, `//…` adopts the base scheme, `/…` the base origin,
and a document-relative reference is resolved against the base path with
dot-segment normalization. -/
def resolveRel (rel : Str) (b : AbsUrl) : Option AbsUrl :=
  if hasSchemePrefix rel then parseUrl rel
  else if startsWith (str "//") rel then parseUrl (b.scheme ++ [':'] ++ rel)
  else if startsWith (str "/") rel then
    let pq := relPathQuery rel
    some ⟨b.scheme, b.host, removeDotSegs (segsOfPath pq.1) [], pq.2⟩
  else if rel.isEmpty then some ⟨b.scheme, b.host, b.pathSegs, b.query⟩
  else if startsWith (str "?") rel then
    some ⟨b.scheme, b.host, b.pathSegs, ((rel.drop 1).takeWhile (fun c => !(c == '#')))⟩
  else if startsWith (str "#") rel then some ⟨b.scheme, b.host, b.pathSegs, b.query⟩
  else
    let pq := relPathQuery rel
    some ⟨b.scheme, b.host, removeDotSegs (b.pathSegs.dropLast ++ splitOnC '/' pq.1) [], pq.2⟩

/-- Models `new URL(rel, baseString)`: the base string is parsed first and
resolution fails when it is unparseable, as the constructor throws. -/
def resolveStr (rel base : Str) : Option AbsUrl := (parseUrl base).bind (resolveRel rel)


/-! Query-string transport and the HTTP request/response model.  The
serverless platform parses the part of the inbound URL after the first
question mark by splitting on ampersands, splitting each pair at its
first equals sign, and form-decoding both sides; handlers re-serialize
parameters with `URLSearchParams`, whose `toString` escapes everything
outside `A-Z a-z 0-9 * - . _` and writes spaces as `+`. -/

/-- Characters `URLSearchParams` serialization leaves unescaped. -/
def formSafeChars : Str := str "ABCDEFGHIJKLMNOPQRSTUVWXYZabcdefghijklmnopqrstuvwxyz0123456789*-._"

/-- Encoding of one character under `application/x-www-form-urlencoded`. -/
def formEncChar (c : Char) : Str :=
  if c = ' ' then ['+']
  else if decide (c ∈ formSafeChars) then [c]
  else ['%', hexUp (c.toNat / 16), hexUp (c.toNat % 16)]

/-- Models `URLSearchParams` serialization of one component. -/
def formEncode : Str → Str
  | [] => []
  | c :: rest => formEncChar c ++ formEncode rest

/-- Models `new URLSearchParams(pairs).toString()`. -/
def formEncodePairs (ps : List (Str × Str)) : Str :=
  joinC '&' (ps.map (fun kv => formEncode kv.1 ++ ['='] ++ formEncode kv.2))

/-- Decodes one `key=value` pair (everything after the first `=` belongs
to the value; a pair without `=` is a key with empty value). -/
def parsePair (p : Str) : Str × Str :=
  match splitFirst '=' p with
  | some kv => (percentDecodePlus kv.1, percentDecodePlus kv.2)
  | none => (percentDecodePlus p, [])

/-- Parses a raw query string into its key/value pairs as the platform
presents them to a handler in `req.query` (empty chunks are skipped). -/
def parseQueryStr (qs : Str) : List (Str × Str) :=
  (splitOnC '&' qs).filterMap (fun p => if p.isEmpty then none else some (parsePair p))

/-- First value bound to a key, modelling property access on `req.query`. -/
def lookupParam (key : Str) (ps : List (Str × Str)) : Option Str :=
  (ps.find? (fun kv => kv.1 == key)).map (fun kv => kv.2)

/-- First value bound to a (lower-cased) header name. -/
def lookupHeader (name : Str) (hs : List (Str × Str)) : Option Str :=
  (hs.find? (fun kv => kv.1 == name)).map (fun kv => kv.2)

/-- Removes a header, modelling `delete headers[name]`. -/
def deleteHeader (name : Str) (hs : List (Str × Str)) : List (Str × Str) :=
  hs.filter (fun kv => !(kv.1 == name))

/-- Replaces a header, modelling assignment on the header object (names
are normalized to lower case in this model). -/
def setHeader (name v : Str) (hs : List (Str × Str)) : List (Str × Str) :=
  deleteHeader name hs ++ [(name, v)]

/-- Inbound request as a handler sees it: method, the request URL, its raw
query string, headers (lower-cased names) and body. -/
structure Request where
  method : Str
  url : Str
  rawQuery : Str
  headers : List (Str × Str)
  body : Str
deriving DecidableEq, Repr

/-- Response a handler produces locally, without contacting any target:
status, whether the CORS headers were set (every handler sets them before
doing anything else), the `error` and `message` fields of the JSON body,
a redirect location, and the body text. -/
structure LocalResponse where
  status : Nat
  cors : Bool
  errorTag : Option Str
  message : Option Str
  location : Option Str
  body : Str
deriving DecidableEq, Repr

/-- Outbound request the forwarding pipeline would issue. -/
structure OutboundRequest where
  method : Str
  url : Str
  body : Option Str
deriving DecidableEq, Repr

/-- Result of the request-decoding phase of a handler: either a local
answer (no outbound request is ever issued) or an outbound fetch. -/
inductive Phase
  | answer (r : LocalResponse)
  | fetch (o : OutboundRequest)
deriving DecidableEq, Repr

/-- Local 200 with empty body for a CORS preflight. -/
def corsOk : LocalResponse := ⟨200, true, none, none, none, []⟩

/-! Handler phase models, one per entry point, each faithful to the
decode/guard section of its source file. -/

/-- Hostname fragments the query-parameter proxy refuses (substring
matched, as in the source). -/
def forbiddenHostFragments : List Str :=
  [str "localhost", str "127.0.0.1", str "0.0.0.0", str "::1",
   str "10.", str "172.", str "192.168.", str "internal", str "local"]

/-- Substring-based forbidden-host test of the query-parameter proxy. -/
def isForbiddenHostname (hostname : Str) : Bool :=
  forbiddenHostFragments.any (fun h => containsSub h hostname)

/-- Scheme normalization the query-parameter proxy applies before
parsing: a target that starts with neither `http://` nor `https://` is
silently prefixed with `https://`. -/
def normalizeScheme (t : Str) : Str :=
  if !startsWith (str "http://") t && !startsWith (str "https://") t
  then str "https://" ++ t else t

/-- Decode/guard phase of the query-parameter entry point `/api/proxy`
(`?url=` codec): CORS preflight, missing-parameter rejection, scheme
normalization, URL parse, forbidden-host guard, then the outbound
request carrying the inbound method and, for `POST`/`PUT` with a
non-empty body, the inbound body. -/
def proxyPhase (req : Request) : Phase :=
  if req.method = str "OPTIONS" then .answer corsOk
  else
    match lookupParam (str "url") (parseQueryStr req.rawQuery) with
    | none =>
      .answer ⟨400, true, some (str "Missing URL parameter"),
        some (str "Please provide a URL to proxy in the ?url= parameter"), none, []⟩
    | some targetUrl =>
      let normalizedUrl := normalizeScheme targetUrl
      match parseUrl normalizedUrl with
      | none => .answer ⟨500, true, some (str "Proxy error"), none, none, []⟩
      | some u =>
        if isForbiddenHostname (toLowerStr (hostnameOf u)) then
          .answer ⟨403, true, some (str "Forbidden URL"),
            some (str "Cannot proxy requests to internal/local addresses"), none, []⟩
        else
          .fetch ⟨req.method, normalizedUrl,
            if (req.method = str "POST" ∨ req.method = str "PUT") ∧ ¬req.body.isEmpty
            then some req.body else none⟩

/-- Decoder of the structured path codec used by `/api/browse?p=…`:
`p = scheme/host/path…` is split on slashes, requiring at least two
segments; the remaining query parameters are re-serialized and appended
as the target's query string. -/
def browseDecodeP (pathParam : Str) (others : List (Str × Str)) : Except Str Str :=
  match splitOnC '/' pathParam with
  | p1 :: p2 :: rest =>
    let path := joinC '/' rest
    let qs := formEncodePairs others
    .ok (p1 ++ str "://" ++ p2 ++ (if path.isEmpty then [] else '/' :: path) ++
      (if qs.isEmpty then [] else '?' :: qs))
  | _ => .error (str "Invalid path format")

/-- Referer-based reconstruction the browse entry point attempts when the
`p` parameter is missing but other query parameters are present. -/
def refererReconstruct (req : Request) : Option Str :=
  match lookupHeader (str "referer") req.headers with
  | none => none
  | some referer =>
    if containsSub (str "/api/browse?p=") referer then
      match parseUrl referer with
      | none => none
      | some ru =>
        match lookupParam (str "p") (parseQueryStr ru.query) with
        | none => none
        | some pParam =>
          match splitOnC '/' pParam with
          | protocol :: domain :: _ =>
            let searchPath := if containsSub (str "/search") req.url then str "search" else []
            let newPParam := protocol ++ ['/'] ++ domain ++
              (if searchPath.isEmpty then [] else '/' :: searchPath)
            let queryString := formEncodePairs (parseQueryStr req.rawQuery)
            some (str "/api/browse?p=" ++ newPParam ++ ['&'] ++ queryString)
          | _ => none
    else none

/-- Decode phase of the structured-path entry point `/api/browse`: CORS
preflight, referer reconstruction or 400 when `p` is missing, a thrown
`Invalid path format` (caught as a 500 `Proxy request failed`) when `p`
has fewer than two segments, else the outbound request with the inbound
method and, for any method other than `GET`/`HEAD`, the inbound body. -/
def browsePhase (req : Request) : Phase :=
  if req.method = str "OPTIONS" then .answer corsOk
  else
    let q := parseQueryStr req.rawQuery
    match lookupParam (str "p") q with
    | none =>
      match (if q.isEmpty then none else refererReconstruct req) with
      | some redirectUrl => .answer ⟨302, true, none, none, some redirectUrl, []⟩
      | none =>
        .answer ⟨400, true, some (str "Missing path parameter"),
          some (str "Expected format: /api/browse?p=https/domain.com/path"), none, []⟩
    | some pathParam =>
      match browseDecodeP pathParam (q.filter (fun kv => !(kv.1 == str "p"))) with
      | .error msg => .answer ⟨500, true, some (str "Proxy request failed"), some msg, none, []⟩
      | .ok targetUrl =>
        .fetch ⟨req.method, targetUrl,
          if ¬(req.method = str "GET") ∧ ¬(req.method = str "HEAD")
          then some req.body else none⟩

/-- Decode phase of the opaque-token entry point `/api/encode/[encoded]`:
the route parameter is base64-decoded; an undecodable target URL only
surfaces when the outbound request is configured (`new URL(target).host`
throws, producing the catch-all 500). -/
def encodedPhase (encoded : Option Str) (req : Request) : Phase :=
  if req.method = str "OPTIONS" then .answer corsOk
  else
    match encoded with
    | none =>
      .answer ⟨400, true, some (str "Missing encoded URL"),
        some (str "Please provide a base64 encoded URL"), none, []⟩
    | some enc =>
      let targetUrl := b64DecodeStr enc
      match parseUrl targetUrl with
      | none => .answer ⟨500, true, some (str "Proxy request failed"), none, none, []⟩
      | some _ =>
        .fetch ⟨req.method, targetUrl,
          if ¬(req.method = str "GET") ∧ ¬(req.method = str "HEAD")
          then some req.body else none⟩

/-- Decode phase of the `/api/pp?__cpo=…` entry point: the base64 token is
decoded; a `POST` with an url-encoded body containing `q=` or `query=` is
turned into a `GET` with the form data appended to the URL, any other
`POST` without captured form data is likewise demoted to `GET` with no
body, and non-`POST` bodies are never forwarded. -/
def ppPhase (req : Request) : Phase :=
  if req.method = str "OPTIONS" then .answer corsOk
  else
    match lookupParam (str "__cpo") (parseQueryStr req.rawQuery) with
    | none =>
      .answer ⟨400, true, some (str "Missing encoded URL parameter"),
        some (str "Expected format: /api/pp?__cpo=BASE64_ENCODED_URL&ko=s"), none, []⟩
    | some encodedUrl =>
      let targetUrl := b64DecodeStr encodedUrl
      match parseUrl targetUrl with
      | none => .answer ⟨500, true, some (str "Proxy request failed"), none, none, []⟩
      | some _ =>
        let ct := (lookupHeader (str "content-type") req.headers).getD []
        if req.method = str "POST" ∧ containsSub (str "application/x-www-form-urlencoded") ct then
          if containsSub (str "q=") req.body ∨ containsSub (str "query=") req.body then
            let sep : Char := if containsSub (str "?") targetUrl then '&' else '?'
            .fetch ⟨str "GET", targetUrl ++ sep :: req.body, none⟩
          else .fetch ⟨req.method, targetUrl, some req.body⟩
        else
          .fetch ⟨if req.method = str "POST" then str "GET" else req.method, targetUrl, none⟩

/-- Phase model of the `/api/debug` endpoint, which never contacts any
target (the non-preflight body is summarized by its `message` field). -/
def debugPhase (req : Request) : Phase :=
  if req.method = str "OPTIONS" then .answer corsOk
  else .answer ⟨200, true, none, some (str "Proxy Debug Information"), none, []⟩

/-! Response relay models. -/

/-- Upstream response as received from the target. -/
structure UpstreamResponse where
  status : Nat
  headers : List (Str × Str)
  body : Str
deriving DecidableEq, Repr

/-- Result of relaying an upstream response to the client. -/
inductive RelayResult
  | redirect (status : Nat) (location : Str)
  | content (status : Nat) (headers : List (Str × Str))
  | failed (status : Nat)
deriving DecidableEq, Repr

/-- Headers the browse/pp/encode relays delete before responding. -/
def browseStripHeaders (hs : List (Str × Str)) : List (Str × Str) :=
  deleteHeader (str "content-security-policy")
    (deleteHeader (str "x-frame-options")
      (deleteHeader (str "transfer-encoding")
        (deleteHeader (str "content-length")
          (deleteHeader (str "content-encoding") hs))))

/-- Relay of the browse entry point: headers are stripped, HTML responses
get a rewritten body under an overridden content type, everything else is
streamed through; the upstream status is always relayed and the location
header of a redirect is passed on unmodified. -/
def browseRelay (resp : UpstreamResponse) : RelayResult :=
  let hs := browseStripHeaders resp.headers
  let ct := (lookupHeader (str "content-type") hs).getD []
  if containsSub (str "text/html") ct then
    .content resp.status (setHeader (str "content-type") (str "text/html; charset=utf-8") hs)
  else .content resp.status hs

/-- Relay of the pp entry point: a 3xx upstream response carrying a
location header is answered with a 302 to the proxy form of the location
resolved against the target (an unresolvable location falls into the
catch-all 500); other responses are relayed like the browse relay. -/
def ppRelay (targetUrl proxyOrigin : Str) (resp : UpstreamResponse) : RelayResult :=
  match (if 300 ≤ resp.status ∧ resp.status < 400
         then lookupHeader (str "location") resp.headers else none) with
  | some loc =>
    match resolveStr loc targetUrl with
    | none => .failed 500
    | some a =>
      .redirect 302 (proxyOrigin ++ str "/api/pp?__cpo=" ++ b64EncodeStr (hrefOf a) ++ str "&ko=s")
  | none =>
    let hs := browseStripHeaders resp.headers
    let ct := (lookupHeader (str "content-type") hs).getD []
    if containsSub (str "text/html") ct then
      .content resp.status (setHeader (str "content-type") (str "text/html; charset=utf-8") hs)
    else .content resp.status hs


/-! Content-rewriter models: the per-URL rewrite functions applied by the
HTML/CSS rewriting passes, and the injected client-side rewrite
functions.  A document is modelled as the list of its URL-bearing
attribute values; the regex passes of the sources touch exactly those
values, one at a time and independently. -/

/-- Server-side `rewriteUrl` of the query-parameter proxy: skip
non-fetchable references, absolutize (protocol-relative via the base
scheme, document-relative via `new URL(url, baseUrl)`), then wrap as
`proxyOrigin/api/proxy?url=<encoded>`; any resolution failure returns the
original URL unchanged. -/
def rewriteUrl (url : Str) (baseUrl proxyOrigin : Str) : Str :=
  if url.isEmpty || startsWith (str "data:") url || startsWith (str "javascript:") url
      || startsWith (str "mailto:") url || startsWith (str "#") url then url
  else
    let abs : Option Str :=
      if startsWith (str "http://") url || startsWith (str "https://") url then some url
      else if startsWith (str "//") url then
        match parseUrl baseUrl with
        | some b => some (protocolOf b ++ url)
        | none => none
      else (resolveStr url baseUrl).map hrefOf
    match abs with
    | some a => proxyOrigin ++ str "/api/proxy?url=" ++ percentEncode a
    | none => url

/-- Applies the query-parameter rewrite to every URL-bearing value of a
document. -/
def rewriteUrlDoc (baseUrl proxyOrigin : Str) (doc : List Str) : List Str :=
  doc.map (fun u => rewriteUrl u baseUrl proxyOrigin)

/-- Absolutization step of the injected client script: absolute URLs
pass through, protocol-relative URLs adopt the base scheme, root-relative
URLs the base origin, and document-relative URLs are resolved against the
page's base reference (the window location is modelled by the base). -/
def clientAbsolutize (baseUrl url : Str) : Option Str :=
  if startsWith (str "http://") url || startsWith (str "https://") url then some url
  else if startsWith (str "//") url then
    match parseUrl baseUrl with
    | some b => some (protocolOf b ++ url)
    | none => none
  else if startsWith (str "/") url then
    match parseUrl baseUrl with
    | some b => some (originOf b ++ url)
    | none => none
  else (resolveStr url baseUrl).map hrefOf

/-- Client-side `rewriteProxyUrl` from the injected script of the
query-parameter proxy: skips non-fetchable schemes and any URL already
containing the `/api/proxy` endpoint, absolutizes the rest and wraps the
result; failures fall back to the original URL. -/
def rewriteProxyUrl (baseUrl proxyOrigin : Str) (url : Str) : Str :=
  if url.isEmpty then url
  else if startsWith (str "data:") url || startsWith (str "javascript:") url
      || startsWith (str "mailto:") url || startsWith (str "tel:") url
      || startsWith (str "#") url || startsWith (str "blob:") url then url
  else if containsSub (str "/api/proxy") url then url
  else
    match clientAbsolutize baseUrl url with
    | some a => proxyOrigin ++ str "/api/proxy?url=" ++ percentEncode a
    | none => url

/-- Builds the structured-path proxy form
`proxyOrigin/api/browse?p=scheme/host[/path]`. -/
def browseProxyForm (proxyOrigin protoSeg domain cleanPath : Str) : Str :=
  proxyOrigin ++ str "/api/browse?p=" ++ protoSeg ++ ['/'] ++ domain ++
    (if cleanPath.isEmpty then [] else '/' :: cleanPath)

/-- Effect of the browse entry point's server-side rewrite passes on one
`href` value: the absolute pass splits scheme, domain and raw path by
pattern; the root-relative pass (guarded against `/api/browse`) prefixes
the base origin; the document-relative pass resolves against the full
base URL and keeps only the resolved pathname (dropping any query); a
reference that fails to resolve is left unchanged. -/
def rewriteHrefForBrowse (baseUrl proxyOrigin : Str) (u : Str) : Str :=
  if startsWith (str "http://") u || startsWith (str "https://") u then
    let isSec := startsWith (str "https://") u
    let proto := if isSec then str "https" else str "http"
    let rest := u.drop (if isSec then 8 else 7)
    let domain := rest.takeWhile (fun c => !(c == '/'))
    let path := rest.drop domain.length
    if domain.isEmpty then u
    else
      let cleanPath := if startsWith (str "/") path then path.drop 1 else path
      browseProxyForm proxyOrigin proto domain cleanPath
  else if startsWith (str "/") u then
    if startsWith (str "/api/browse") (u) then u
    else
      match parseUrl baseUrl with
      | none => u
      | some b =>
        let path := u.drop 1
        let cleanPath := if startsWith (str "/") path then path.drop 1 else path
        browseProxyForm proxyOrigin b.scheme b.host cleanPath
  else if startsWith (str "#") u || startsWith (str "javascript:") u
      || startsWith (str "mailto:") u then u
  else
    match resolveStr u baseUrl with
    | none => u
    | some r =>
      let resolvedPath := if pathnameOf r = str "/" then [] else (pathnameOf r).drop 1
      browseProxyForm proxyOrigin r.scheme r.host resolvedPath

/-- Applies the browse rewrite to every `href` value of a document. -/
def rewriteHrefDocForBrowse (baseUrl proxyOrigin : Str) (doc : List Str) : List Str :=
  doc.map (rewriteHrefForBrowse baseUrl proxyOrigin)

/-- Client-side `convertToBrowseProxy` from the browse entry point's
injected script: absolutizes against the page's base protocol and host,
then emits `p=scheme/host[/path]` with the search string appended
verbatim after the embedded path. -/
def convertToBrowseProxy (baseProto baseHost proxyOrigin : Str) (url : Str) : Str :=
  if url.isEmpty || startsWith (str "#") url || startsWith (str "javascript:") url
      || startsWith (str "data:") url then url
  else
    let abs : Option AbsUrl :=
      if startsWith (str "http://") url || startsWith (str "https://") url then parseUrl url
      else if startsWith (str "//") url then parseUrl (baseProto ++ [':'] ++ url)
      else if startsWith (str "/") url then parseUrl (baseProto ++ str "://" ++ baseHost ++ url)
      else resolveStr url (baseProto ++ str "://" ++ baseHost ++ ['/'])
    match abs with
    | none => url
    | some a =>
      let pathname := if pathnameOf a = str "/" then [] else (pathnameOf a).drop 1
      proxyOrigin ++ str "/api/browse?p=" ++ a.scheme ++ ['/'] ++ a.host ++
        (if pathname.isEmpty then [] else '/' :: pathname) ++ searchOf a

/-- Form element, modelled by its `action` and `method` attributes. -/
structure Form where
  action : Option Str
  method : Option Str
deriving DecidableEq, Repr

/-- Effective submission method of a form (the HTML default is GET). -/
def formMethodEffective (f : Form) : Str := f.method.getD (str "GET")

/-- Form rewrite of the browse entry point: an empty, absent or `#`
action is pointed at the current page's proxy form (pages whose path
mentions `search` are special-cased to the `/search` endpoint);
root-relative, absolute and document-relative actions are re-encoded;
the `method` attribute is never touched. -/
def rewriteFormForBrowse (baseUrl proxyOrigin : Str) (f : Form) : Form :=
  match parseUrl baseUrl with
  | none => f
  | some b =>
    let act := f.action.getD []
    if act.isEmpty || act = str "#" then
      let currentPath := if pathnameOf b = str "/" then [] else (pathnameOf b).drop 1
      if containsSub (str "/search") (pathnameOf b) || containsSub (str "search") currentPath then
        ⟨some (browseProxyForm proxyOrigin b.scheme b.host (str "search")), f.method⟩
      else
        ⟨some (browseProxyForm proxyOrigin b.scheme b.host currentPath), f.method⟩
    else if startsWith (str "/") act then
      ⟨some (browseProxyForm proxyOrigin b.scheme b.host (act.drop 1)), f.method⟩
    else if startsWith (str "http") act then
      match parseUrl act with
      | none => f
      | some a =>
        let actionPath := if pathnameOf a = str "/" then [] else (pathnameOf a).drop 1
        ⟨some (browseProxyForm proxyOrigin a.scheme a.host actionPath), f.method⟩
    else
      match resolveStr act baseUrl with
      | none => f
      | some r =>
        let resolvedPath := if pathnameOf r = str "/" then [] else (pathnameOf r).drop 1
        ⟨some (browseProxyForm proxyOrigin r.scheme r.host resolvedPath), f.method⟩

/-- Form rewrite of the path-segment entry point: empty/`#` actions are
pointed at the current page (base pathname kept), root-relative actions
at the base host plus action, and all other actions are left to the
earlier absolute pass; the `method` attribute is never touched. -/
def rewriteFormForPath (baseUrl proxyOrigin : Str) (f : Form) : Form :=
  match parseUrl baseUrl with
  | none => f
  | some b =>
    let act := f.action.getD []
    if act.isEmpty || act = str "#" then
      ⟨some (proxyOrigin ++ str "/api/browse/" ++ b.scheme ++ ['/'] ++ b.host ++ pathnameOf b),
        f.method⟩
    else if startsWith (str "/") act then
      ⟨some (proxyOrigin ++ str "/api/browse/" ++ b.scheme ++ ['/'] ++ b.host ++ act), f.method⟩
    else f

/-- Form rewrite of the pp entry point: every form is pointed at the
current proxy URL, and a form without a `method` attribute has
`method="POST"` added. -/
def rewriteFormForPp (encodedUrl proxyOrigin : Str) (f : Form) : Form :=
  ⟨some (proxyOrigin ++ str "/api/pp?__cpo=" ++ encodedUrl ++ str "&ko=s"),
    some (f.method.getD (str "POST"))⟩


/-! Remaining definitions used by the claim statements. -/

/-- Decode side of the query-parameter codec as the `/api/proxy` handler
performs it on the raw query string: parameter lookup followed by scheme
normalization. -/
def proxyDecodeTarget (rawQuery : Str) : Option Str :=
  (lookupParam (str "url") (parseQueryStr rawQuery)).map normalizeScheme

/-- Decode of a full structured-path proxy URL: the query string after
the first `?` is parsed, the `p` parameter extracted, and the remaining
parameters re-appended by `browseDecodeP`. -/
def browseDecodeProxyUrl (proxyForm : Str) : Except Str Str :=
  match splitFirst '?' proxyForm with
  | none => .error (str "Missing path parameter")
  | some pf =>
    let ps := parseQueryStr pf.2
    match lookupParam (str "p") ps with
    | none => .error (str "Missing path parameter")
    | some pParam => browseDecodeP pParam (ps.filter (fun kv => !(kv.1 == str "p")))

/-- Base string the query-parameter pipeline hands its rewriter: the
target's protocol and host only (`urlObj.protocol + "//" + urlObj.host`),
with the target's path discarded. -/
def proxyPipelineBase (u : AbsUrl) : Str := protocolOf u ++ str "//" ++ u.host

/-- RFC1918 private-address prefixes in dotted-decimal form. -/
def rfc1918Prefixes : List Str :=
  [str "10.", str "192.168.",
   str "172.16.", str "172.17.", str "172.18.", str "172.19.",
   str "172.20.", str "172.21.", str "172.22.", str "172.23.",
   str "172.24.", str "172.25.", str "172.26.", str "172.27.",
   str "172.28.", str "172.29.", str "172.30.", str "172.31."]

/-- Hostnames the specification requires the access guard to refuse:
loopback addresses and RFC1918 private addresses. -/
def specForbiddenHostname (h : Str) : Prop :=
  h = str "127.0.0.1" ∨ h = str "localhost" ∨ ∃ p ∈ rfc1918Prefixes, startsWith p h = true

/-- Status of a relayed response. -/
def relayStatus : RelayResult → Nat
  | .redirect s _ => s
  | .content s _ => s
  | .failed s => s

/-- Reference that reaches the document-relative resolution of both
server-side rewriters and fails to resolve there: not skipped, not
absolute, not protocol- or root-relative, and unresolvable against the
base (for example `ftp://bad host/x`, whose authority is invalid). -/
def isUnresolvableRef (baseUrl u : Str) : Prop :=
  u.isEmpty = false ∧ startsWith (str "data:") u = false ∧
  startsWith (str "javascript:") u = false ∧ startsWith (str "mailto:") u = false ∧
  startsWith (str "#") u = false ∧ startsWith (str "http://") u = false ∧
  startsWith (str "https://") u = false ∧ startsWith (str "//") u = false ∧
  startsWith (str "/") u = false ∧ resolveStr u baseUrl = none


/-- Decidable equality for `Except`, so concrete decode results can be
checked by evaluation. -/
instance {ε α : Type} [DecidableEq ε] [DecidableEq α] : DecidableEq (Except ε α) := fun x y =>
  match x, y with
  | .ok a, .ok b => decidable_of_iff (a = b) (by simp)
  | .error a, .error b => decidable_of_iff (a = b) (by simp)
  | .ok _, .error _ => isFalse (fun h => Except.noConfusion h)
  | .error _, .ok _ => isFalse (fun h => Except.noConfusion h)

/-- Decidability of the unresolvable-reference predicate, so witnesses
can be checked by evaluation. -/
instance (baseUrl u : Str) : Decidable (isUnresolvableRef baseUrl u) := by
  unfold isUnresolvableRef
  infer_instance


/-! Lemmas about the string primitives and the codecs. -/

theorem containsSub_iff (pat s : Str) : containsSub pat s = true ↔ pat <:+: s := by
  induction s with
  | nil =>
    simp only [containsSub, List.isEmpty_iff]
    constructor
    · intro h; simp [h]
    · intro h; exact List.eq_nil_of_infix_nil h
  | cons c rest ih =>
    simp only [containsSub, Bool.or_eq_true, List.isPrefixOf_iff_prefix, ih]
    constructor
    · rintro (h | h)
      · exact h.isInfix
      · rcases h with ⟨t₁, t₂, he⟩
        exact ⟨c :: t₁, t₂, by simp [he]⟩
    · intro h
      rcases h with ⟨t₁, t₂, he⟩
      cases t₁ with
      | nil =>
        left
        exact ⟨t₂, by simpa using he⟩
      | cons x xs =>
        right
        simp only [List.cons_append, List.cons.injEq] at he
        exact ⟨xs, t₂, he.2⟩

theorem splitOnC_of_not_mem {sep : Char} {s : Str} (h : sep ∉ s) :
    splitOnC sep s = [s] := by
  induction s with
  | nil => rfl
  | cons c rest ih =>
    simp only [List.mem_cons, not_or] at h
    have hcs : ¬c = sep := fun hc => h.1 hc.symm
    simp [splitOnC, hcs, ih h.2]

theorem splitFirst_append {sep : Char} {pre : Str} (h : sep ∉ pre) (post : Str) :
    splitFirst sep (pre ++ sep :: post) = some (pre, post) := by
  induction pre with
  | nil => simp [splitFirst]
  | cons c rest ih =>
    simp only [List.mem_cons, not_or] at h
    have hcs : ¬c = sep := fun hc => h.1 hc.symm
    simp [splitFirst, hcs, ih h.2]

theorem splitFirst_of_not_mem {sep : Char} {s : Str} (h : sep ∉ s) :
    splitFirst sep s = none := by
  induction s with
  | nil => rfl
  | cons c rest ih =>
    simp only [List.mem_cons, not_or] at h
    have hcs : ¬c = sep := fun hc => h.1 hc.symm
    simp [splitFirst, hcs, ih h.2]

theorem hexVal_hexUp : ∀ n < 16, hexVal (hexUp n) = some n := by decide

theorem isSafeChar_not_percent {c : Char} (h : isSafeChar c = true) : c ≠ '%' := by
  intro hc
  subst hc
  exact absurd h (by decide)

theorem percentDecode_cons_safe {c : Char} (h : c ≠ '%') (rest : Str) :
    percentDecode (c :: rest) = c :: percentDecode rest := by
  cases rest with
  | nil => simp [percentDecode]
  | cons a tl => cases tl with
    | nil => simp [percentDecode]
    | cons b tl₂ =>
      rw [percentDecode.eq_def]
      split
      · simp_all
      · simp_all
      · rename_i heq
        rw [List.cons.injEq] at heq
        rw [heq.1, heq.2]

theorem percentDecode_encChar {c : Char} (hc : c.toNat < 128) (rest : Str) :
    percentDecode (encChar c ++ rest) = c :: percentDecode rest := by
  by_cases hs : isSafeChar c = true
  · rw [encChar, if_pos hs]
    exact percentDecode_cons_safe (isSafeChar_not_percent hs) rest
  · rw [encChar, if_neg hs]
    have h16a : c.toNat / 16 < 16 := by omega
    have h16b : c.toNat % 16 < 16 := Nat.mod_lt _ (by omega)
    simp only [List.cons_append, List.nil_append, percentDecode,
      hexVal_hexUp _ h16a, hexVal_hexUp _ h16b]
    rw [Nat.div_add_mod, Char.ofNat_toNat]
    simp

/-- Round trip of the percent codec on ASCII strings: decoding an encoded
string restores it exactly. -/
theorem percentDecode_percentEncode {s : Str} (h : ∀ c ∈ s, c.toNat < 128) :
    percentDecode (percentEncode s) = s := by
  induction s with
  | nil => rfl
  | cons c rest ih =>
    have hc : c.toNat < 128 := h c (List.mem_cons_self c rest)
    rw [percentEncode, percentDecode_encChar hc,
      ih (fun d hd => h d (List.mem_cons_of_mem c hd))]

theorem encChar_avoids {c x : Char} (hc : c.toNat < 128) (bad : Char)
    (hbad : bad ∉ safeChars) (hbp : bad ≠ '%') (hbh : ∀ n < 16, hexUp n ≠ bad)
    (hx : x ∈ encChar c) : x ≠ bad := by
  unfold encChar at hx
  by_cases hs : isSafeChar c = true
  · rw [if_pos hs] at hx
    simp only [List.mem_singleton] at hx
    subst hx
    intro he
    subst he
    exact hbad (by simpa [isSafeChar] using hs)
  · rw [if_neg hs] at hx
    have h1 : c.toNat / 16 < 16 := by omega
    have h2 : c.toNat % 16 < 16 := Nat.mod_lt _ (by omega)
    simp only [List.mem_cons, List.not_mem_nil, or_false] at hx
    rcases hx with rfl | rfl | rfl
    · exact fun he => hbp he.symm
    · exact hbh _ h1
    · exact hbh _ h2

/-- No output character of `percentEncode` on ASCII input is one of the
separator characters the query-string transport splits on. -/
theorem percentEncode_avoids {s : Str} (h : ∀ c ∈ s, c.toNat < 128) (bad : Char)
    (hbad : bad ∉ safeChars) (hbp : bad ≠ '%') (hbh : ∀ n < 16, hexUp n ≠ bad) :
    bad ∉ percentEncode s := by
  induction s with
  | nil => simp [percentEncode]
  | cons c rest ih =>
    rw [percentEncode]
    intro hmem
    rcases List.mem_append.mp hmem with hm | hm
    · exact encChar_avoids (h c (List.mem_cons_self c rest)) bad hbad hbp hbh hm rfl
    · exact ih (fun d hd => h d (List.mem_cons_of_mem c hd)) hm

theorem plusToSpace_of_no_plus {s : Str} (h : '+' ∉ s) : plusToSpace s = s := by
  induction s with
  | nil => rfl
  | cons c rest ih =>
    simp only [List.mem_cons, not_or] at h
    have hcp : ¬c = '+' := fun hcc => h.1 hcc.symm
    simp only [plusToSpace, List.map_cons, List.map] at ih ⊢
    rw [if_neg hcp]
    exact congrArg (c :: ·) (ih h.2)

theorem b64Idx_b64Chr : ∀ n < 64, b64Idx (b64Chr n) = some n := by decide

theorem b64Idx_pad_eq_none : b64Idx '=' = none := by decide

/-- Round trip of the byte-level base64 codec, by the three-byte block
structure of the encoder. -/
theorem b64DecBytes_b64EncBytes : ∀ bs : List Nat, (∀ b ∈ bs, b < 256) →
    b64DecBytes (b64EncBytes bs) = bs
  | [], _ => rfl
  | [x], h => by
    have hx : x < 256 := h x (by simp)
    rw [b64DecBytes, b64EncBytes]
    simp only [List.filterMap_cons, b64Idx_pad_eq_none,
      b64Idx_b64Chr _ (by omega : x / 4 < 64), b64Idx_b64Chr _ (by omega : x % 4 * 16 < 64),
      List.filterMap_nil]
    simp only [b64Sextets, List.cons.injEq, and_true]
    omega
  | [x, y], h => by
    have hx : x < 256 := h x (by simp)
    have hy : y < 256 := h y (by simp)
    rw [b64DecBytes, b64EncBytes]
    simp only [List.filterMap_cons, b64Idx_pad_eq_none,
      b64Idx_b64Chr _ (by omega : x / 4 < 64),
      b64Idx_b64Chr _ (by omega : x % 4 * 16 + y / 16 < 64),
      b64Idx_b64Chr _ (by omega : y % 16 * 4 < 64), List.filterMap_nil]
    simp only [b64Sextets, List.cons.injEq, and_true]
    exact ⟨by omega, by omega⟩
  | x :: y :: z :: rest, h => by
    have hx : x < 256 := h x (by simp)
    have hy : y < 256 := h y (by simp)
    have hz : z < 256 := h z (by simp)
    have hrest : ∀ b ∈ rest, b < 256 := fun b hb => h b (by simp [hb])
    have ih := b64DecBytes_b64EncBytes rest hrest
    rw [b64DecBytes, b64EncBytes]
    simp only [List.filterMap_cons,
      b64Idx_b64Chr _ (by omega : x / 4 < 64),
      b64Idx_b64Chr _ (by omega : x % 4 * 16 + y / 16 < 64),
      b64Idx_b64Chr _ (by omega : y % 16 * 4 + z / 64 < 64),
      b64Idx_b64Chr _ (by omega : z % 64 < 64)]
    simp only [b64Sextets, List.cons.injEq]
    refine ⟨by omega, by omega, by omega, ?_⟩
    rw [b64DecBytes] at ih
    exact ih

/-- Round trip of the string-level base64 codec on ASCII strings. -/
theorem b64DecodeStr_b64EncodeStr {s : Str} (h : ∀ c ∈ s, c.toNat < 128) :
    b64DecodeStr (b64EncodeStr s) = s := by
  rw [b64EncodeStr, b64DecodeStr,
    b64DecBytes_b64EncBytes (strBytes s)
      (by intro b hb
          rcases List.mem_map.mp hb with ⟨c, hc, rfl⟩
          exact Nat.lt_of_lt_of_le (h c hc) (by omega))]
  rw [bytesStr, strBytes, List.map_map]
  have : (Char.ofNat ∘ Char.toNat) = id := funext (fun c => Char.ofNat_toNat c)
  rw [this, List.map_id]

/-! Shared helper lemmas for the claim theorems. -/

theorem containsSub_of_infix {pat s : Str} (h : pat <:+: s) : containsSub pat s = true :=
  (containsSub_iff pat s).mpr h

theorem containsSub_mono {pat t s : Str} (hts : t <:+: s)
    (h : containsSub pat t = true) : containsSub pat s = true :=
  containsSub_of_infix (((containsSub_iff pat t).mp h).trans hts)

theorem rfc1918_fragment_covered :
    ∀ p ∈ rfc1918Prefixes, ∃ f ∈ forbiddenHostFragments, f <:+: p := by decide

/-- Every hostname the specification forbids is caught by the
substring-based check of the query-parameter proxy. -/
theorem specForbidden_implies_code {h : Str} (hs : specForbiddenHostname h) :
    isForbiddenHostname h = true := by
  rcases hs with rfl | rfl | ⟨p, hp, hpre⟩
  · decide
  · decide
  · rcases rfc1918_fragment_covered p hp with ⟨f, hf, hinf⟩
    have hpfx : p <+: h := (List.isPrefixOf_iff_prefix).mp hpre
    have : containsSub f h = true := containsSub_of_infix (hinf.trans hpfx.isInfix)
    rw [isForbiddenHostname, List.any_eq_true]
    exact ⟨f, hf, this⟩

/-! Claim theorems. -/

/-- C10: an OPTIONS request is answered locally on every entry point with
status 200, CORS headers set and an empty body, and no outbound request
to any target is issued, regardless of the query parameters supplied. -/
theorem c10_options_preflight (req : Request) (enc : Option Str)
    (h : req.method = str "OPTIONS") :
    proxyPhase req = .answer corsOk ∧ browsePhase req = .answer corsOk ∧
    ppPhase req = .answer corsOk ∧ encodedPhase enc req = .answer corsOk ∧
    debugPhase req = .answer corsOk ∧
    corsOk.status = 200 ∧ corsOk.cors = true ∧ corsOk.body = [] := by
  refine ⟨?_, ?_, ?_, ?_, ?_, rfl, rfl, rfl⟩ <;>
    simp [proxyPhase, browsePhase, ppPhase, encodedPhase, debugPhase, h]

theorem c10_options_preflight_witness :
    proxyPhase ⟨str "OPTIONS", str "/api/browse?p=https/localhost/x", str "p=https/localhost/x", [], str ""⟩ = .answer corsOk ∧
    browsePhase ⟨str "OPTIONS", str "/api/browse?p=https/localhost/x", str "p=https/localhost/x", [], str ""⟩ = .answer corsOk ∧
    ppPhase ⟨str "OPTIONS", str "/api/browse?p=https/localhost/x", str "p=https/localhost/x", [], str ""⟩ = .answer corsOk ∧
    encodedPhase (some (str "AAAA")) ⟨str "OPTIONS", str "/api/browse?p=https/localhost/x", str "p=https/localhost/x", [], str ""⟩ = .answer corsOk ∧
    debugPhase ⟨str "OPTIONS", str "/api/browse?p=https/localhost/x", str "p=https/localhost/x", [], str ""⟩ = .answer corsOk ∧
    corsOk.status = 200 ∧ corsOk.cors = true ∧ corsOk.body = [] :=
  c10_options_preflight ⟨str "OPTIONS", str "/api/browse?p=https/localhost/x", str "p=https/localhost/x", [], str ""⟩ (some (str "AAAA")) rfl

/-- C2 counterexample: not every entry point rejects forbidden hosts; the
structured-path entry point decodes a localhost target and issues the
outbound request to it instead of answering 403. -/
theorem c2_forbidden_host_counterexample :
    browsePhase ⟨str "GET", str "/api/browse?p=https/localhost/x", str "p=https/localhost/x", [], str ""⟩ =
      .fetch ⟨str "GET", str "https://localhost/x", none⟩ := by decide

/-- C3 counterexample: the query-parameter decoder does not reject a
target missing its scheme; it silently substitutes `https://` and
produces a target. -/
theorem c3_decode_counterexample :
    startsWith (str "http://") (str "example.com") = false ∧
    startsWith (str "https://") (str "example.com") = false ∧
    proxyPhase ⟨str "GET", str "/api/proxy?url=example.com", str "url=example.com", [], str ""⟩ =
      .fetch ⟨str "GET", str "https://example.com", none⟩ := by decide

/-- C4 counterexample: the browse entry point relays an upstream 302 with
its location header unmodified (`/login`), not rewritten into any
proxy-addressable form (every proxy-addressable form of this system
contains `/api/`). -/
theorem c4_redirect_counterexample :
    browseRelay ⟨302, [(str "location", str "/login"), (str "content-type", str "text/plain")], str ""⟩ =
      .content 302 [(str "location", str "/login"), (str "content-type", str "text/plain")] ∧
    containsSub (str "/api/") (str "/login") = false := by decide

/-- C5 counterexample: the query-parameter pipeline passes its rewriter
only the target's origin as base, so with target `https://example.com/a/b`
the document-relative `c/d` is rewritten to the proxy form of
`https://example.com/c/d`, not of `https://example.com/a/c/d`. -/
theorem c5_relative_resolution_counterexample :
    rewriteUrl (str "c/d")
        (proxyPipelineBase ⟨str "https", str "example.com", [str "a", str "b"], str ""⟩)
        (str "https://proxy.test") =
      str "https://proxy.test/api/proxy?url=https%3A%2F%2Fexample.com%2Fc%2Fd" ∧
    ¬(rewriteUrl (str "c/d")
        (proxyPipelineBase ⟨str "https", str "example.com", [str "a", str "b"], str ""⟩)
        (str "https://proxy.test") =
      str "https://proxy.test/api/proxy?url=https%3A%2F%2Fexample.com%2Fa%2Fc%2Fd") := by decide

/-- C5 (amended): the browse rewriter resolves a document-relative URL
against the full base URL including its path: with base
`https://example.com/a/b`, `c/d` is rewritten to the proxy form whose
decode is `https://example.com/a/c/d`. -/
theorem c5_relative_resolution_amended :
    rewriteHrefForBrowse (str "https://example.com/a/b") (str "https://proxy.test") (str "c/d") =
      str "https://proxy.test/api/browse?p=https/example.com/a/c/d" ∧
    browseDecodeP (str "https/example.com/a/c/d") [] = .ok (str "https://example.com/a/c/d") := by decide

/-- C6 counterexample: the pp rewriter does not preserve the method of a
form without a method attribute; it forces `method="POST"`, changing the
effective method from GET to POST. -/
theorem c6_empty_form_counterexample :
    formMethodEffective (rewriteFormForPp (str "TOK") (str "https://proxy.test") ⟨none, none⟩) = str "POST" ∧
    formMethodEffective (⟨none, none⟩ : Form) = str "GET" ∧
    ¬(str "POST" = str "GET") := by decide

/-- C7 counterexample: the pp entry point does not forward the inbound
method unchanged; a POST without url-encoded form data is forwarded as a
GET with its body dropped. -/
theorem c7_forward_counterexample :
    ppPhase ⟨str "POST", str "/api/pp?__cpo=aHR0cHM6Ly9leGFtcGxlLmNvbS94&ko=s",
        str "__cpo=aHR0cHM6Ly9leGFtcGxlLmNvbS94&ko=s",
        [(str "content-type", str "application/json")], str "ab"⟩ =
      .fetch ⟨str "GET", str "https://example.com/x", none⟩ ∧
    ¬(str "GET" = str "POST") := by decide

/-- C9 counterexample: the server-side `rewriteUrl` is not idempotent; an
already-proxied absolute URL is wrapped a second time. -/
theorem c9_idempotence_counterexample :
    ¬(rewriteUrl
        (rewriteUrl (str "https://target.com/a") (str "https://example.com") (str "https://proxy.test"))
        (str "https://example.com") (str "https://proxy.test") =
      rewriteUrl (str "https://target.com/a") (str "https://example.com") (str "https://proxy.test")) := by
  decide

/-- C1 counterexample: the structured path-segment codec is not
round-trip stable; encoding `https://example.com/search?q=x&lang=en`
and decoding the result yields `https://example.com/search?q=x?lang=en`
(the second query parameter is split off in transport and re-appended
after a second `?`). -/
theorem c1_roundtrip_counterexample :
    browseDecodeProxyUrl (convertToBrowseProxy (str "https") (str "example.com")
        (str "https://proxy.test") (str "https://example.com/search?q=x&lang=en")) =
      .ok (str "https://example.com/search?q=x?lang=en") ∧
    ¬(browseDecodeProxyUrl (convertToBrowseProxy (str "https") (str "example.com")
        (str "https://proxy.test") (str "https://example.com/search?q=x&lang=en")) =
      .ok (str "https://example.com/search?q=x&lang=en")) := by decide


/-- C2 (amended): on the query-parameter entry point, a request whose
decoded target's hostname is 127.0.0.1, localhost, or an RFC1918 private
address is answered 403 Forbidden, and no outbound request is issued
(the handler returns a local answer, never a fetch). -/
theorem c2_forbidden_host_amended (req : Request) (tu : Str) (hu : AbsUrl)
    (hm : ¬(req.method = str "OPTIONS"))
    (hq : lookupParam (str "url") (parseQueryStr req.rawQuery) = some tu)
    (hp : parseUrl (normalizeScheme tu) = some hu)
    (hf : specForbiddenHostname (toLowerStr (hostnameOf hu))) :
    proxyPhase req = .answer ⟨403, true, some (str "Forbidden URL"),
      some (str "Cannot proxy requests to internal/local addresses"), none, []⟩ := by
  have hforb := specForbidden_implies_code hf
  simp [proxyPhase, hm, hq, hp, hforb]

theorem c2_forbidden_host_amended_witness :
    proxyPhase ⟨str "GET", str "/api/proxy?url=http://127.0.0.1/admin",
        str "url=http://127.0.0.1/admin", [], str ""⟩ =
      .answer ⟨403, true, some (str "Forbidden URL"),
        some (str "Cannot proxy requests to internal/local addresses"), none, []⟩ :=
  c2_forbidden_host_amended
    ⟨str "GET", str "/api/proxy?url=http://127.0.0.1/admin", str "url=http://127.0.0.1/admin", [], str ""⟩
    (str "http://127.0.0.1/admin") ⟨str "http", str "127.0.0.1", [str "admin"], str ""⟩
    (by decide) (by decide) (by decide) (Or.inl (by decide))

/-- C3 (amended): structured-path encodings with fewer than two segments
are rejected with a distinguishable decode error, but the
query-parameter decoder silently substitutes an `https` scheme for a
scheme-less target instead of rejecting it. -/
theorem c3_decode_amended (pathParam : Str) (others : List (Str × Str)) (t : Str)
    (hshort : (splitOnC '/' pathParam).length < 2)
    (h1 : startsWith (str "http://") t = false)
    (h2 : startsWith (str "https://") t = false) :
    browseDecodeP pathParam others = .error (str "Invalid path format") ∧
    normalizeScheme t = str "https://" ++ t := by
  constructor
  · rcases hsplit : splitOnC '/' pathParam with _ | ⟨a, rest⟩
    · simp [browseDecodeP, hsplit]
    · rcases rest with _ | ⟨b, rest2⟩
      · simp [browseDecodeP, hsplit]
      · rw [hsplit] at hshort
        simp only [List.length_cons] at hshort
        omega
  · simp [normalizeScheme, h1, h2]

theorem c3_decode_amended_witness :
    browseDecodeP (str "https") [] = .error (str "Invalid path format") ∧
    normalizeScheme (str "example.com") = str "https://" ++ str "example.com" :=
  c3_decode_amended (str "https") [] (str "example.com") (by decide) (by decide) (by decide)

/-- C4 (amended): a 3xx upstream response with a location header reaching
the pp entry point is relayed as a 302 whose location is the proxy
(base64) form of the location resolved against the target, and decoding
that form's token recovers exactly the resolved absolute URL. -/
theorem c4_redirect_amended (targetUrl proxyOrigin loc : Str) (a : AbsUrl)
    (resp : UpstreamResponse)
    (h3a : 300 ≤ resp.status) (h3b : resp.status < 400)
    (hloc : lookupHeader (str "location") resp.headers = some loc)
    (hres : resolveStr loc targetUrl = some a)
    (hascii : ∀ c ∈ hrefOf a, c.toNat < 128) :
    ppRelay targetUrl proxyOrigin resp =
      .redirect 302 (proxyOrigin ++ str "/api/pp?__cpo=" ++ b64EncodeStr (hrefOf a) ++ str "&ko=s") ∧
    b64DecodeStr (b64EncodeStr (hrefOf a)) = hrefOf a := by
  refine ⟨?_, b64DecodeStr_b64EncodeStr hascii⟩
  simp [ppRelay, h3a, h3b, hloc, hres]

theorem c4_redirect_amended_witness :
    ppRelay (str "https://example.com/x") (str "https://proxy.test")
        ⟨302, [(str "location", str "/login")], str ""⟩ =
      .redirect 302 (str "https://proxy.test" ++ str "/api/pp?__cpo=" ++
        b64EncodeStr (hrefOf ⟨str "https", str "example.com", [str "login"], str ""⟩) ++ str "&ko=s") ∧
    b64DecodeStr (b64EncodeStr (hrefOf ⟨str "https", str "example.com", [str "login"], str ""⟩)) =
      hrefOf ⟨str "https", str "example.com", [str "login"], str ""⟩ :=
  c4_redirect_amended (str "https://example.com/x") (str "https://proxy.test") (str "/login")
    ⟨str "https", str "example.com", [str "login"], str ""⟩
    ⟨302, [(str "location", str "/login")], str ""⟩
    (by decide) (by decide) (by decide) (by decide) (by decide)


/-- C6 (amended): in the browse and path-segment rewriters, a form whose
action is empty, absent or `#` is pointed at the current page's
proxy-addressable form with the method attribute untouched, provided the
page path does not mention `search` (such pages are special-cased to the
`/search` endpoint by the browse rewriter); the pp rewriter instead
forces `method="POST"` onto method-less forms. -/
theorem c6_empty_form_amended (baseUrl proxyOrigin : Str) (b : AbsUrl) (f : Form)
    (hparse : parseUrl baseUrl = some b)
    (hact : f.action = none ∨ f.action = some [] ∨ f.action = some (str "#"))
    (hns : containsSub (str "search") (pathnameOf b) = false) :
    rewriteFormForBrowse baseUrl proxyOrigin f =
      ⟨some (browseProxyForm proxyOrigin b.scheme b.host
        (if pathnameOf b = str "/" then [] else (pathnameOf b).drop 1)), f.method⟩ ∧
    rewriteFormForPath baseUrl proxyOrigin f =
      ⟨some (proxyOrigin ++ str "/api/browse/" ++ b.scheme ++ ['/'] ++ b.host ++ pathnameOf b),
        f.method⟩ := by
  have hA : containsSub (str "/search") (pathnameOf b) = false := by
    cases hcase : containsSub (str "/search") (pathnameOf b) with
    | false => rfl
    | true =>
      have h2 := containsSub_mono ((containsSub_iff _ _).mp hcase)
        (show containsSub (str "search") (str "/search") = true by decide)
      rw [hns] at h2
      exact Bool.noConfusion h2
  have hB : containsSub (str "search")
      (if pathnameOf b = str "/" then [] else (pathnameOf b).drop 1) = false := by
    cases hpb : decide (pathnameOf b = str "/") with
    | true =>
      simp only [of_decide_eq_true hpb, if_pos]
      decide
    | false =>
      rw [if_neg (of_decide_eq_false hpb)]
      cases hcase : containsSub (str "search") ((pathnameOf b).drop 1) with
      | false => rfl
      | true =>
        have h2 := containsSub_mono (List.IsSuffix.isInfix (List.drop_suffix 1 (pathnameOf b))) hcase
        rw [hns] at h2
        exact Bool.noConfusion h2
  rw [List.drop_one] at hB
  rcases hact with ha | ha | ha <;>
    exact ⟨by simp [rewriteFormForBrowse, hparse, ha, hA, hB],
           by simp [rewriteFormForPath, hparse, ha]⟩

theorem c6_empty_form_amended_witness :
    rewriteFormForBrowse (str "https://example.com/a/b") (str "https://proxy.test")
        ⟨some (str "#"), some (str "post")⟩ =
      ⟨some (browseProxyForm (str "https://proxy.test") (str "https") (str "example.com")
        (if pathnameOf ⟨str "https", str "example.com", [str "a", str "b"], str ""⟩ = str "/"
         then []
         else (pathnameOf ⟨str "https", str "example.com", [str "a", str "b"], str ""⟩).drop 1)),
        some (str "post")⟩ ∧
    rewriteFormForPath (str "https://example.com/a/b") (str "https://proxy.test")
        ⟨some (str "#"), some (str "post")⟩ =
      ⟨some (str "https://proxy.test" ++ str "/api/browse/" ++ str "https" ++ ['/'] ++
        str "example.com" ++ pathnameOf ⟨str "https", str "example.com", [str "a", str "b"], str ""⟩),
        some (str "post")⟩ :=
  c6_empty_form_amended (str "https://example.com/a/b") (str "https://proxy.test")
    ⟨str "https", str "example.com", [str "a", str "b"], str ""⟩
    ⟨some (str "#"), some (str "post")⟩
    (by decide) (Or.inr (Or.inr rfl)) (by decide)


/-- Unresolvable references fall through every branch of the browse
rewriter and are returned unchanged. -/
theorem rewriteHrefForBrowse_unresolvable {baseUrl proxyOrigin u : Str}
    (h : isUnresolvableRef baseUrl u) : rewriteHrefForBrowse baseUrl proxyOrigin u = u := by
  obtain ⟨hne, hdata, hjs, hmail, hhash, hhttp, hhttps, hss, hslash, hres⟩ := h
  simp [rewriteHrefForBrowse, hne, hdata, hjs, hmail, hhash, hhttp, hhttps, hss, hslash, hres]

/-- Unresolvable references fall through every branch of the
query-parameter rewriter and are returned unchanged. -/
theorem rewriteUrl_unresolvable {baseUrl proxyOrigin u : Str}
    (h : isUnresolvableRef baseUrl u) : rewriteUrl u baseUrl proxyOrigin = u := by
  obtain ⟨hne, hdata, hjs, hmail, hhash, hhttp, hhttps, hss, hslash, hres⟩ := h
  simp [rewriteUrl, hne, hdata, hjs, hmail, hhash, hhttp, hhttps, hss, hres]

/-- C8: a document with one unresolvable URL has exactly that URL left
unmodified while every other URL is rewritten exactly as it would be in
its absence, in both the browse and the query-parameter rewriters, and
the relayed response always keeps the upstream's status. -/
theorem c8_graceful_degradation (baseUrl proxyOrigin bad : Str) (pre post : List Str)
    (hbad : isUnresolvableRef baseUrl bad) :
    rewriteHrefDocForBrowse baseUrl proxyOrigin (pre ++ bad :: post) =
      rewriteHrefDocForBrowse baseUrl proxyOrigin pre ++
        bad :: rewriteHrefDocForBrowse baseUrl proxyOrigin post ∧
    rewriteUrlDoc baseUrl proxyOrigin (pre ++ bad :: post) =
      rewriteUrlDoc baseUrl proxyOrigin pre ++ bad :: rewriteUrlDoc baseUrl proxyOrigin post ∧
    ∀ resp : UpstreamResponse, relayStatus (browseRelay resp) = resp.status := by
  refine ⟨?_, ?_, ?_⟩
  · simp [rewriteHrefDocForBrowse, rewriteHrefForBrowse_unresolvable hbad]
  · simp [rewriteUrlDoc, rewriteUrl_unresolvable hbad]
  · intro resp
    rw [browseRelay]
    split <;> rfl

theorem c8_graceful_degradation_witness :
    (rewriteHrefDocForBrowse (str "https://example.com/a/b") (str "https://proxy.test")
        ([str "c/d"] ++ str "ftp://bad host/x" :: [str "/img.png"]) =
      rewriteHrefDocForBrowse (str "https://example.com/a/b") (str "https://proxy.test") [str "c/d"] ++
        str "ftp://bad host/x" ::
          rewriteHrefDocForBrowse (str "https://example.com/a/b") (str "https://proxy.test") [str "/img.png"]) ∧
    relayStatus (browseRelay ⟨200, [(str "content-type", str "text/html")], str ""⟩) = 200 := by
  have h := c8_graceful_degradation (str "https://example.com/a/b") (str "https://proxy.test")
    (str "ftp://bad host/x") [str "c/d"] [str "/img.png"] (by decide)
  exact ⟨h.1, h.2.2 ⟨200, [(str "content-type", str "text/html")], str ""⟩⟩

/-- Any string of the shape `p ++ /api/proxy?url= ++ e` contains the
proxy endpoint. -/
theorem containsSub_api_proxy (p e : Str) :
    containsSub (str "/api/proxy") (p ++ str "/api/proxy?url=" ++ e) = true := by
  apply containsSub_of_infix
  refine ⟨p, str "?url=" ++ e, ?_⟩
  rw [List.append_assoc p, List.append_assoc p]
  exact congrArg (p ++ ·) rfl

/-- Any URL containing the proxy endpoint is a fixed point of the
client-side rewrite. -/
theorem rewriteProxyUrl_fixed (baseUrl proxyOrigin o : Str)
    (hc : containsSub (str "/api/proxy") o = true) :
    rewriteProxyUrl baseUrl proxyOrigin o = o := by
  have hne : o.isEmpty = false := by
    cases o with
    | nil => exact absurd hc (by decide)
    | cons c t => rfl
  rw [rewriteProxyUrl]
  simp [hne, hc]

/-- C9 (amended): the client-side interception rewrite is idempotent on
every input: skipped references stay skipped, and a rewritten reference
contains `/api/proxy` and is therefore skipped by a second pass; the
server-side `rewriteUrl` has no such guard. -/
theorem c9_idempotence_amended (baseUrl proxyOrigin url : Str) :
    rewriteProxyUrl baseUrl proxyOrigin (rewriteProxyUrl baseUrl proxyOrigin url) =
      rewriteProxyUrl baseUrl proxyOrigin url := by
  by_cases h1 : url.isEmpty = true
  · have hfu : rewriteProxyUrl baseUrl proxyOrigin url = url := by
      rw [rewriteProxyUrl, if_pos h1]
    rw [hfu, hfu]
  · by_cases h2 : (startsWith (str "data:") url || startsWith (str "javascript:") url
        || startsWith (str "mailto:") url || startsWith (str "tel:") url
        || startsWith (str "#") url || startsWith (str "blob:") url) = true
    · have hfu : rewriteProxyUrl baseUrl proxyOrigin url = url := by
        rw [rewriteProxyUrl, if_neg h1, if_pos h2]
      rw [hfu, hfu]
    · by_cases h3 : containsSub (str "/api/proxy") url = true
      · have hfu : rewriteProxyUrl baseUrl proxyOrigin url = url := by
          rw [rewriteProxyUrl, if_neg h1, if_neg h2, if_pos h3]
        rw [hfu, hfu]
      · rcases habs : clientAbsolutize baseUrl url with _ | a
        · have hfu : rewriteProxyUrl baseUrl proxyOrigin url = url := by
            rw [rewriteProxyUrl, if_neg h1, if_neg h2, if_neg h3, habs]
          rw [hfu, hfu]
        · have hfu : rewriteProxyUrl baseUrl proxyOrigin url =
              proxyOrigin ++ str "/api/proxy?url=" ++ percentEncode a := by
            rw [rewriteProxyUrl, if_neg h1, if_neg h2, if_neg h3, habs]
          rw [hfu, rewriteProxyUrl_fixed _ _ _ (containsSub_api_proxy proxyOrigin (percentEncode a))]


/-- C7 (amended): whenever the browse, query-parameter or encode entry
point issues an outbound request, its method is the inbound method
unchanged, and for POST/PUT the inbound body is forwarded verbatim (the
query-parameter entry point forwards the body only when it is
non-empty); the pp entry point does not share this property. -/
theorem c7_forward_amended (req : Request) :
    (∀ o : OutboundRequest, browsePhase req = .fetch o → o.method = req.method ∧
      ((req.method = str "POST" ∨ req.method = str "PUT") → o.body = some req.body)) ∧
    (∀ o : OutboundRequest, proxyPhase req = .fetch o → o.method = req.method ∧
      ((req.method = str "POST" ∨ req.method = str "PUT") → req.body.isEmpty = false →
        o.body = some req.body)) ∧
    (∀ (enc : Option Str) (o : OutboundRequest), encodedPhase enc req = .fetch o →
      o.method = req.method ∧
      ((req.method = str "POST" ∨ req.method = str "PUT") → o.body = some req.body)) := by
  refine ⟨?_, ?_, ?_⟩
  · intro o hb
    simp only [browsePhase] at hb
    repeat' split at hb
    any_goals exact Phase.noConfusion hb
    · cases hb
      exact ⟨rfl, fun _ => rfl⟩
    · rename_i hcond
      cases hb
      refine ⟨rfl, ?_⟩
      rintro (hm | hm) <;> rw [hm] at hcond <;> exact absurd ⟨by decide, by decide⟩ hcond
  · intro o hb
    simp only [proxyPhase] at hb
    repeat' split at hb
    any_goals exact Phase.noConfusion hb
    · cases hb
      exact ⟨rfl, fun _ _ => rfl⟩
    · rename_i hcond
      cases hb
      refine ⟨rfl, ?_⟩
      intro hm hbody
      exact absurd ⟨hm, by simp [hbody]⟩ hcond
  · intro enc o hb
    simp only [encodedPhase] at hb
    repeat' split at hb
    any_goals exact Phase.noConfusion hb
    · cases hb
      exact ⟨rfl, fun _ => rfl⟩
    · rename_i hcond
      cases hb
      refine ⟨rfl, ?_⟩
      rintro (hm | hm) <;> rw [hm] at hcond <;> exact absurd ⟨by decide, by decide⟩ hcond

theorem c7_forward_amended_witness :
    browsePhase ⟨str "POST", str "/api/browse?p=https/example.com/s",
        str "p=https/example.com/s", [], str "a=b"⟩ =
      .fetch ⟨str "POST", str "https://example.com/s", some (str "a=b")⟩ ∧
    OutboundRequest.method ⟨str "POST", str "https://example.com/s", some (str "a=b")⟩ = str "POST" ∧
    OutboundRequest.body ⟨str "POST", str "https://example.com/s", some (str "a=b")⟩ =
      some (str "a=b") := by
  have h := (c7_forward_amended
    ⟨str "POST", str "/api/browse?p=https/example.com/s", str "p=https/example.com/s", [], str "a=b"⟩).1
    ⟨str "POST", str "https://example.com/s", some (str "a=b")⟩ (by decide)
  exact ⟨by decide, h.1, h.2 (Or.inl rfl)⟩


/-- C1 (amended): the query-parameter codec and the opaque base64 token
codec are round-trip stable on every ASCII absolute URL: the handler's
decode of `url=` plus the percent-encoded URL recovers it exactly
(including its query string and path), and base64 decoding the encoded
token recovers it exactly; the structured path-segment codec does not
share this property. -/
theorem c1_roundtrip_amended (u : Str) (hascii : ∀ c ∈ u, c.toNat < 128)
    (hsch : startsWith (str "http://") u = true ∨ startsWith (str "https://") u = true) :
    proxyDecodeTarget (str "url=" ++ percentEncode u) = some u ∧
    b64DecodeStr (b64EncodeStr u) = u := by
  have hamp : '&' ∉ percentEncode u := percentEncode_avoids hascii '&' (by decide) (by decide) (by decide)
  have hplus : '+' ∉ percentEncode u := percentEncode_avoids hascii '+' (by decide) (by decide) (by decide)
  have hampAll : '&' ∉ str "url=" ++ percentEncode u := by
    intro hmem
    rcases List.mem_append.mp hmem with hm | hm
    · exact absurd hm (by decide)
    · exact hamp hm
  constructor
  · rw [proxyDecodeTarget, parseQueryStr, splitOnC_of_not_mem hampAll]
    have hne : (str "url=" ++ percentEncode u).isEmpty = false := rfl
    have hsplit : splitFirst '=' (str "url=" ++ percentEncode u) =
        some (str "url", percentEncode u) := by
      have heqv : str "url=" ++ percentEncode u = str "url" ++ '=' :: percentEncode u := rfl
      rw [heqv]
      exact splitFirst_append (by decide) _
    have hval : percentDecodePlus (percentEncode u) = u := by
      rw [percentDecodePlus, plusToSpace_of_no_plus hplus, percentDecode_percentEncode hascii]
    have hnorm : normalizeScheme u = u := by
      rcases hsch with hs | hs <;> simp [normalizeScheme, hs]
    have hkey : percentDecodePlus (str "url") = str "url" := rfl
    simp only [List.filterMap_cons, List.filterMap_nil, hne, Bool.false_eq_true, if_false,
      parsePair, hsplit, hval]
    simp [lookupParam, List.find?, hkey, hnorm]
  · exact b64DecodeStr_b64EncodeStr hascii

theorem c1_roundtrip_amended_witness :
    proxyDecodeTarget (str "url=" ++ percentEncode (str "https://example.com/a?q=1")) =
      some (str "https://example.com/a?q=1") ∧
    b64DecodeStr (b64EncodeStr (str "https://example.com/a?q=1")) =
      str "https://example.com/a?q=1" :=
  c1_roundtrip_amended (str "https://example.com/a?q=1") (by decide) (Or.inr (by decide))


end WebProxy
